import Mathlib

/-!
# Verification of the `ad_dns` reconciliation module

A shallow embedding of `src/ad_dns.py`, an Ansible module that reconciles a
single DNS record in an AD DNS zone by invoking `samba-tool` and parsing its
textual output.  The embedding models:

* the classification of the query result (`get_exist_dns`), including a
  faithful model of the `re.findall` call on the pattern
  `TYPE: ([0-9.]+) \(flags=(.*), serial=(.*), ttl=(.*)\)`;
* the mutating step (`manage_dns`) with its action guard and error
  classification;
* the `main` control flow, with external-tool behaviour abstracted as an
  environment `Invocation → ToolResult` and the sequence of issued
  invocations recorded as a trace.

Process execution, credential formatting and Ansible argument validation are
external collaborators in the spec and are abstracted away; `state` and
`type` are validated by `AnsibleModule` choices, so `state` is modelled as a
two-valued type.
-/

/-- Result of one `module.run_command` call: exit code, stdout, stderr.
`stdout` is `Option` to mirror the Python code's `stdout is not None` test. -/
structure ToolResult where
  rc : Int
  stdout : Option String
  stderr : String
deriving DecidableEq, Repr

/-- Drop `pat` from the front of `cs`; `none` if `pat` is not a prefix. -/
def dropPrefixChars : List Char → List Char → Option (List Char)
  | [], cs => some cs
  | _ :: _, [] => none
  | p :: ps, c :: cs => if p = c then dropPrefixChars ps cs else none

/-- Substring containment on character lists; models the Python `in` operator
on strings. -/
def isInfixChars (pat : List Char) : List Char → Bool
  | [] => (dropPrefixChars pat []).isSome
  | c :: cs => (dropPrefixChars pat (c :: cs)).isSome || isInfixChars pat cs

/-- Models Python `pat in s` for strings. -/
def containsSub (s pat : String) : Bool :=
  isInfixChars pat.data s.data

/-- stderr marker: the zone does not exist (fatal). -/
def zoneMarker : String := "WERR_DNS_ERROR_ZONE_DOES_NOT_EXIST"

/-- stderr marker: the record name does not exist (record absent). -/
def nameMarker : String := "WERR_DNS_ERROR_NAME_DOES_NOT_EXIST"

/-- stderr marker: the record already exists (race-tolerated on add). -/
def existsMarker : String := "WERR_DNS_ERROR_RECORD_ALREADY_EXISTS"

/-- One element of the regex used in `get_exist_dns`.  `lit` is a literal
chunk, `numdot` is the capture `([0-9.]+)`, `anystar` is a capture `(.*)`
(greedy, not crossing a newline, possibly empty). -/
inductive Pat where
  | lit (s : String)
  | numdot
  | anystar
deriving DecidableEq, Repr

/-- Character class `[0-9.]` of the value capture. -/
def isNumDotChar (c : Char) : Bool :=
  c.isDigit || c == '.'

/-- Match a pattern list at the start of `cs`, Python-regex style: literals
must match exactly, quantified captures are greedy with backtracking
(longest candidate first, `numdot` requires at least one character).
Returns the captured groups in order and the remaining input. -/
def matchPats : List Pat → List Char → Option (List String × List Char)
  | [], cs => some ([], cs)
  | .lit s :: ps, cs =>
      match dropPrefixChars s.data cs with
      | some rest => matchPats ps rest
      | none => none
  | .numdot :: ps, cs =>
      let n := (cs.takeWhile isNumDotChar).length
      ((List.range n).map (fun i => n - i)).findSome? (fun k =>
        match matchPats ps (cs.drop k) with
        | some (caps, rest) => some (String.mk (cs.take k) :: caps, rest)
        | none => none)
  | .anystar :: ps, cs =>
      let n := (cs.takeWhile (fun c => c != '\n')).length
      ((List.range (n + 1)).map (fun i => n - i)).findSome? (fun k =>
        match matchPats ps (cs.drop k) with
        | some (caps, rest) => some (String.mk (cs.take k) :: caps, rest)
        | none => none)

/-- True when the pattern matches at some position of `cs` (i.e. at the start
of some suffix); the semantic condition under which `re.findall` is
non-empty. -/
def existsMatch (pats : List Pat) : List Char → Bool
  | [] => (matchPats pats []).isSome
  | c :: cs => (matchPats pats (c :: cs)).isSome || existsMatch pats cs

/-- Scan `cs` left to right collecting non-overlapping leftmost matches, as
`re.findall` does; `fuel` bounds the recursion and is instantiated with the
input length, which always suffices because every step consumes at least one
character. -/
def scanAllAux (pats : List Pat) : Nat → List Char → List (List String)
  | 0, _ => []
  | _ + 1, [] => []
  | fuel + 1, c :: cs =>
      match matchPats pats (c :: cs) with
      | some (caps, rest) =>
          if rest.length < cs.length + 1 then caps :: scanAllAux pats fuel rest
          else caps :: scanAllAux pats fuel cs
      | none => scanAllAux pats fuel cs

/-- All matches of `pats` in `cs`, in order of occurrence. -/
def scanAll (pats : List Pat) (cs : List Char) : List (List String) :=
  scanAllAux pats cs.length cs

/-- The pattern `'{}: ([0-9.]+) \(flags=(.*), serial=(.*), ttl=(.*)\)'.format(type)`
from `get_exist_dns`.  The validated record types (A, AAAA, PTR, CNAME, NS,
MX, SRV, TXT) contain no regex metacharacters, so the interpolated type is a
literal. -/
def recordPats (type : String) : List Pat :=
  [.lit (type ++ ": "), .numdot, .lit " (flags=", .anystar,
   .lit ", serial=", .anystar, .lit ", ttl=", .anystar, .lit ")"]

/-- One parsed record line: value, flags, serial, ttl (the 4-tuple returned
by `re.findall`). -/
structure ExistingRecord where
  value : String
  flags : String
  serial : String
  ttl : String
deriving DecidableEq, Repr

/-- The `re.findall` call of `get_exist_dns`: every match becomes one
`ExistingRecord`, in order of occurrence in `stdout`. -/
def parseRecords (type stdout : String) : List ExistingRecord :=
  (scanAll (recordPats type) stdout.data).filterMap (fun caps =>
    match caps with
    | [v, f, s, t] => some ⟨v, f, s, t⟩
    | _ => none)

/-- One external `samba-tool dns` invocation: either a query or a mutation
(`add`/`delete`).  Server, zone and credentials are fixed per run
(`ConnectionContext` in the spec) and omitted from the identity. -/
inductive Invocation where
  | query (record type : String)
  | mutate (action record value type : String)
deriving DecidableEq, Repr

/-- True for a mutating (add/delete path) invocation. -/
def Invocation.isMutate : Invocation → Bool
  | .mutate _ _ _ _ => true
  | .query _ _ => false

/-- True for a delete invocation. -/
def Invocation.isDelete : Invocation → Bool
  | .mutate a _ _ _ => a == "delete"
  | .query _ _ => false

/-- The value argument of a mutating invocation, if any. -/
def Invocation.mutValue : Invocation → Option String
  | .mutate _ _ v _ => some v
  | .query _ _ => none

/-- Behaviour of the external tool during one run: the `ToolResult` each
invocation would produce. -/
def Env : Type := Invocation → ToolResult

/-- Result of `get_exist_dns`: either the module fails because the zone is
missing, or it obtains a (possibly empty) record list. -/
inductive QueryResult where
  | failZone (msg : String)
  | records (rs : List ExistingRecord)
deriving DecidableEq, Repr

/-- Classification of the query's `ToolResult` in `get_exist_dns`
(`src/ad_dns.py` lines 169-185): zone marker → fatal; non-zero exit or name
marker → empty list; otherwise parse stdout (the Python guard
`stdout or stdout is not None` is `True` for every non-`None` stdout,
including the empty string, hence the literal `|| true`). -/
def classifyQuery (zone type : String) (res : ToolResult) : QueryResult :=
  if containsSub res.stderr zoneMarker then
    .failZone ("Zone " ++ zone ++ " does not exists.")
  else if res.rc != 0 || containsSub res.stderr nameMarker then
    .records []
  else
    match res.stdout with
    | some out =>
        if out != "" || true then .records (parseRecords type out)
        else .records []
    | none => .records []

/-- `get_exist_dns`: one query invocation, classified; the second component
is the trace of invocations issued. -/
def get_exist_dns (zone record type : String) (env : Env) :
    QueryResult × List Invocation :=
  (classifyQuery zone type (env (.query record type)), [.query record type])

/-- Outcome of the `manage_dns` step. -/
inductive ManageOutcome where
  | wrongAction (msg : String)
  | exitUnchanged (msg : String)
  | failed (msg : String) (stderr : String) (rc : Int)
  | ok
deriving DecidableEq, Repr

/-- Classification of the mutate invocation's `ToolResult`
(`src/ad_dns.py` lines 212-219): `add` failing with the already-exists
marker exits unchanged; any other non-zero exit fails with the message,
`samba_tool_stderr` and `samba_tool_rc`; zero exit returns normally. -/
def manage_dns_classify (action : String) (res : ToolResult) : ManageOutcome :=
  if action == "add" && res.rc != 0 && containsSub res.stderr existsMarker then
    .exitUnchanged "Rercord already present"
  else if res.rc != 0 then
    .failed ("Action " ++ action ++ " for record failed") res.stderr res.rc
  else
    .ok

/-- `manage_dns`: guard the action, then issue the mutating invocation and
classify its result; the trace records whether the tool was invoked. -/
def manage_dns (record value type action : String) (env : Env) :
    ManageOutcome × List Invocation :=
  if action != "add" && action != "delete" then
    (.wrongAction "Wrong action for managing DNS record", [])
  else
    (manage_dns_classify action (env (.mutate action record value type)),
     [.mutate action record value type])

/-- Desired state, validated to `present`/`absent` by the Ansible argument
spec. -/
inductive DState where
  | present
  | absent
deriving DecidableEq, Repr

/-- The module parameters consumed by `main` (server, zone, credentials live
in the connection context and do not influence the decision logic). -/
structure Params where
  record : String
  value : String
  type : String
  state : DState
deriving DecidableEq, Repr

/-- Terminal outcome of one run, mirroring the `exit_json`/`fail_json`
calls: `changed`/`unchanged` with the message, a zone failure, an action
failure carrying `samba_tool_stderr` and `samba_tool_rc`, or the wrong-action
failure. -/
inductive RunOutcome where
  | unchanged (msg : String)
  | changed (msg : String)
  | failedZone (msg : String)
  | failedAction (msg : String) (stderr : String) (rc : Int)
  | wrongAction (msg : String)
deriving DecidableEq, Repr

/-- True for a `Changed` outcome. -/
def RunOutcome.isChanged : RunOutcome → Bool
  | .changed _ => true
  | _ => false

/-- True for an `Unchanged` outcome. -/
def RunOutcome.isUnchanged : RunOutcome → Bool
  | .unchanged _ => true
  | _ => false

/-- The decision logic of `main` after the query (`src/ad_dns.py` lines
246-271), given the current record list: ensure-present adds unless some
current value equals the desired one; ensure-absent deletes exactly the
desired value when present, and otherwise reports why nothing changed.  In
check mode the mutating call is skipped but the classification is kept. -/
def reconcile (p : Params) (checkMode : Bool) (exist_records : List ExistingRecord)
    (env : Env) : RunOutcome × List Invocation :=
  match p.state with
  | .present =>
      if exist_records.any (fun rec => rec.value == p.value) then
        (.unchanged "Record already present", [])
      else if checkMode then
        (.changed "Record has been created", [])
      else
        match manage_dns p.record p.value p.type "add" env with
        | (.exitUnchanged msg, tr) => (.unchanged msg, tr)
        | (.failed msg st rc, tr) => (.failedAction msg st rc, tr)
        | (.wrongAction msg, tr) => (.wrongAction msg, tr)
        | (.ok, tr) => (.changed "Record has been created", tr)
  | .absent =>
      if exist_records.isEmpty then
        (.unchanged "No such record found", [])
      else if (exist_records.map (fun r => r.value)).contains p.value then
        if checkMode then
          (.changed "Record has been deleted", [])
        else
          match manage_dns p.record p.value p.type "delete" env with
          | (.exitUnchanged msg, tr) => (.unchanged msg, tr)
          | (.failed msg st rc, tr) => (.failedAction msg st rc, tr)
          | (.wrongAction msg, tr) => (.wrongAction msg, tr)
          | (.ok, tr) => (.changed "Record has been deleted", tr)
      else
        (.unchanged ("Record found with different value, but not with " ++ p.value), [])

/-- The whole `main` run: query, classify, then reconcile; the trace lists
every external invocation in the order it is issued. -/
def runMain (p : Params) (checkMode : Bool) (zone : String) (env : Env) :
    RunOutcome × List Invocation :=
  match get_exist_dns zone p.record p.type env with
  | (.failZone msg, qtr) => (.failedZone msg, qtr)
  | (.records exist_records, qtr) =>
      let step := reconcile p checkMode exist_records env
      (step.1, qtr ++ step.2)

/-- An environment returning the same fixed result for every invocation;
used to instantiate theorems at concrete tool behaviours. -/
def envLit (rc : Int) (stdout : Option String) (stderr : String) : Env :=
  fun _ => ⟨rc, stdout, stderr⟩

/-- Environment in which every invocation succeeds with empty output. -/
def envOk : Env := envLit 0 (some "") ""

/-- C1: ensure-present decision.  With `state = present`: if some current
record's value equals the desired value the run ends `Unchanged` ("Record
already present") with no invocation; otherwise the real-mode run issues
exactly one `add` invocation and, when it exits 0, ends
`Changed` ("Record has been created"); and no delete invocation ever appears
in the trace of the ensure-present path. -/
theorem c1_ensure_present (p : Params) (cur : List ExistingRecord) (check : Bool)
    (env : Env) (hp : p.state = DState.present) :
    (cur.any (fun r => r.value == p.value) = true →
      reconcile p check cur env = (.unchanged "Record already present", [])) ∧
    (cur.any (fun r => r.value == p.value) = false →
      (reconcile p false cur env).2 = [Invocation.mutate "add" p.record p.value p.type] ∧
      ((env (Invocation.mutate "add" p.record p.value p.type)).rc = 0 →
        (reconcile p false cur env).1 = RunOutcome.changed "Record has been created")) ∧
    (∀ inv ∈ (reconcile p check cur env).2, inv.isDelete = false) := by
  refine ⟨?_, ?_, ?_⟩
  · intro h
    simp [reconcile, hp, h]
  · intro h
    simp only [reconcile, hp, h, Bool.false_eq_true, if_false, manage_dns]
    cases hcl : manage_dns_classify "add" (env (Invocation.mutate "add" p.record p.value p.type)) with
    | wrongAction msg =>
        rw [manage_dns_classify] at hcl
        split_ifs at hcl
    | exitUnchanged msg =>
        simp [hcl]
        intro hrc
        rw [manage_dns_classify] at hcl
        simp [hrc] at hcl
    | failed msg st rc =>
        simp [hcl]
        intro hrc
        rw [manage_dns_classify] at hcl
        simp [hrc] at hcl
    | ok => simp [hcl]
  · intro inv hinv
    rcases hst : p.state with h | h
    · rw [reconcile, hst] at hinv
      by_cases hany : cur.any (fun r => r.value == p.value) = true
      · simp [hany] at hinv
      · simp only [Bool.not_eq_true] at hany
        by_cases hck : check = true
        · simp [hany, hck] at hinv
        · simp only [Bool.not_eq_true] at hck
          simp only [hany, hck, Bool.false_eq_true, if_false, manage_dns] at hinv
          cases hcl : manage_dns_classify "add" (env (Invocation.mutate "add" p.record p.value p.type)) <;>
            simp [hcl] at hinv <;> simp [hinv, Invocation.isDelete]
    · exact absurd (hp.symm.trans hst) (by simp)

/-- Witness for C1 at the spec's non-destructive add scenario: current
records hold "10.1.1.123", desired value "10.1.1.124" present; the real run
issues exactly the one add invocation, ends Changed, and its trace holds no
delete. -/
theorem c1_ensure_present_witness :
    (reconcile ⟨"www", "10.1.1.124", "A", DState.present⟩ false
        [⟨"10.1.1.123", "f0", "0", "1800"⟩] envOk).2 =
      [Invocation.mutate "add" "www" "10.1.1.124" "A"] ∧
    (reconcile ⟨"www", "10.1.1.124", "A", DState.present⟩ false
        [⟨"10.1.1.123", "f0", "0", "1800"⟩] envOk).1 =
      RunOutcome.changed "Record has been created" := by
  have h := (c1_ensure_present ⟨"www", "10.1.1.124", "A", DState.present⟩
    [⟨"10.1.1.123", "f0", "0", "1800"⟩] false envOk rfl).2.1 (by decide)
  exact ⟨h.1, h.2 rfl⟩

/-- C2: ensure-absent decision.  With `state = absent`: an empty current
list ends `Unchanged` ("No such record found") with no invocation; a
non-empty list without the desired value ends `Unchanged` ("Record found
with different value, ...") with no invocation; when the desired value is
present the real-mode run issues exactly one `delete` invocation for exactly
that value and, when it exits 0, ends `Changed` ("Record has been
deleted"); every invocation in the trace targets the desired value. -/
theorem c2_ensure_absent (p : Params) (cur : List ExistingRecord) (check : Bool)
    (env : Env) (hp : p.state = DState.absent) :
    (cur = [] → reconcile p check cur env = (.unchanged "No such record found", [])) ∧
    (cur ≠ [] → (cur.map (fun r => r.value)).contains p.value = false →
      reconcile p check cur env =
        (.unchanged ("Record found with different value, but not with " ++ p.value), [])) ∧
    ((cur.map (fun r => r.value)).contains p.value = true →
      (reconcile p false cur env).2 = [Invocation.mutate "delete" p.record p.value p.type] ∧
      ((env (Invocation.mutate "delete" p.record p.value p.type)).rc = 0 →
        (reconcile p false cur env).1 = RunOutcome.changed "Record has been deleted")) ∧
    (∀ inv ∈ (reconcile p check cur env).2, inv.mutValue = some p.value) := by
  refine ⟨?_, ?_, ?_, ?_⟩
  · intro h
    simp [reconcile, hp, h]
  · intro hne hc
    have hc' : ¬∃ r ∈ cur, r.value = p.value := by simpa using hc
    simp [reconcile, hp, List.isEmpty_iff, hne, hc']
  · intro hc
    have hc' : ∃ r ∈ cur, r.value = p.value := by simpa using hc
    have hne : cur.isEmpty = false := by
      cases cur with
      | nil => simp at hc
      | cons a l => rfl
    simp only [reconcile, hp, hne, Bool.false_eq_true, if_false, hc, if_true, manage_dns]
    cases hcl : manage_dns_classify "delete" (env (Invocation.mutate "delete" p.record p.value p.type)) with
    | wrongAction msg =>
        rw [manage_dns_classify] at hcl
        split_ifs at hcl
    | exitUnchanged msg =>
        simp [hcl, hc']
        intro hrc
        rw [manage_dns_classify] at hcl
        simp [hrc] at hcl
    | failed msg st rc =>
        simp [hcl, hc']
        intro hrc
        rw [manage_dns_classify] at hcl
        simp [hrc] at hcl
    | ok => simp [hcl, hc']
  · intro inv hinv
    simp only [reconcile, hp] at hinv
    split at hinv
    · simp at hinv
    · split at hinv
      · split at hinv
        · simp at hinv
        · simp only [manage_dns] at hinv
          rw [if_neg (by decide)] at hinv
          split at hinv <;> rename_i heq <;> injection heq with h1 h2 <;>
            rw [← h2] at hinv <;> simp at hinv <;> simp [hinv, Invocation.mutValue]
      · simp at hinv

/-- Witness for C2 at the spec's targeted-delete scenario: current values
"10.1.1.123" and "10.1.1.124", desired "10.1.1.123" absent; the real run
issues exactly one delete invocation, it targets "10.1.1.123", and the run
ends Changed. -/
theorem c2_ensure_absent_witness :
    (reconcile ⟨"www", "10.1.1.123", "A", DState.absent⟩ false
        [⟨"10.1.1.123", "f0", "0", "1800"⟩, ⟨"10.1.1.124", "f0", "0", "1800"⟩] envOk).2 =
      [Invocation.mutate "delete" "www" "10.1.1.123" "A"] ∧
    (reconcile ⟨"www", "10.1.1.123", "A", DState.absent⟩ false
        [⟨"10.1.1.123", "f0", "0", "1800"⟩, ⟨"10.1.1.124", "f0", "0", "1800"⟩] envOk).1 =
      RunOutcome.changed "Record has been deleted" := by
  have h := (c2_ensure_absent ⟨"www", "10.1.1.123", "A", DState.absent⟩
    [⟨"10.1.1.123", "f0", "0", "1800"⟩, ⟨"10.1.1.124", "f0", "0", "1800"⟩]
    false envOk rfl).2.2.1 (by decide)
  exact ⟨h.1, h.2 rfl⟩

/-- C10: the action guard of `manage_dns`.  For every action other than
`add` and `delete`, the run fails with the wrong-action message and the
trace is empty: the external tool is never invoked, whatever behaviour the
environment would have. -/
theorem c10_wrong_action_guard (record value type action : String) (env : Env)
    (h1 : action ≠ "add") (h2 : action ≠ "delete") :
    manage_dns record value type action env =
      (.wrongAction "Wrong action for managing DNS record", []) := by
  rw [manage_dns, if_pos]
  simp [h1, h2]

/-- Witness for C10 at the concrete action "update": the guard fires and no
invocation is recorded, even under an environment that would report
success. -/
theorem c10_wrong_action_guard_witness :
    manage_dns "www" "10.1.1.123" "A" "update" envOk =
      (ManageOutcome.wrongAction "Wrong action for managing DNS record", []) :=
  c10_wrong_action_guard "www" "10.1.1.123" "A" "update" envOk
    (by decide) (by decide)

/-- C5: zone-missing is fatal.  Whenever the query's stderr contains the
zone-does-not-exist marker, `get_exist_dns` fails with the zone message and
never produces a record list — the exit code and the rest of stderr (in
particular a simultaneous name-does-not-exist marker) are irrelevant. -/
theorem c5_zone_missing_fatal (zone record type : String) (env : Env)
    (hz : containsSub (env (Invocation.query record type)).stderr zoneMarker = true) :
    (get_exist_dns zone record type env).1 =
      QueryResult.failZone ("Zone " ++ zone ++ " does not exists.") ∧
    ∀ rs, (get_exist_dns zone record type env).1 ≠ QueryResult.records rs := by
  constructor
  · simp [get_exist_dns, classifyQuery, hz]
  · intro rs
    simp [get_exist_dns, classifyQuery, hz]

/-- Witness for C5: exit code 0 and a stderr holding both the zone marker
and the name marker still classify as the fatal zone failure. -/
theorem c5_zone_missing_fatal_witness :
    (get_exist_dns "example.com" "www" "A"
        (envLit 0 (some "  Name=, Records=1, Children=0\n    A: 10.1.1.123 (flags=f0, serial=0, ttl=1800)")
          "ERROR: WERR_DNS_ERROR_ZONE_DOES_NOT_EXIST WERR_DNS_ERROR_NAME_DOES_NOT_EXIST")).1 =
      QueryResult.failZone "Zone example.com does not exists." :=
  (c5_zone_missing_fatal "example.com" "www" "A" _ (by decide)).1

/-- Counterexample for C7's stdout clause: two delete failures that differ
only in the tool's stdout produce the identical failure outcome, and that
outcome carries exactly the message, stderr and exit code
(`samba_tool_stderr`, `samba_tool_rc` in `fail_json`) — the tool's stdout is
not part of the diagnostics, contrary to the claim. -/
theorem c7_counterexample :
    (manage_dns "www" "10.1.1.123" "A" "delete"
        (envLit 1 (some "diagnostic stdout A") "ERR")).1 =
      (manage_dns "www" "10.1.1.123" "A" "delete"
        (envLit 1 (some "diagnostic stdout B") "ERR")).1 ∧
    (manage_dns "www" "10.1.1.123" "A" "delete"
        (envLit 1 (some "diagnostic stdout A") "ERR")).1 =
      ManageOutcome.failed "Action delete for record failed" "ERR" 1 := by
  decide

/-- C7 (amended): apply-step error classification for a valid action.  The
mutating invocation is issued; `add` failing with the already-exists marker
ends `Unchanged` ("Rercord already present"); every other non-zero exit
fails carrying the tool's stderr and exit code (stdout is not included in
the diagnostics); a zero exit never fails. -/
theorem c7_apply_error_classification (record value type action : String) (env : Env)
    (hvalid : action = "add" ∨ action = "delete") :
    (manage_dns record value type action env).2 =
      [Invocation.mutate action record value type] ∧
    (action = "add" →
      ¬(env (Invocation.mutate action record value type)).rc = 0 →
      containsSub (env (Invocation.mutate action record value type)).stderr existsMarker = true →
      (manage_dns record value type action env).1 =
        ManageOutcome.exitUnchanged "Rercord already present") ∧
    (¬(env (Invocation.mutate action record value type)).rc = 0 →
      (action = "delete" ∨
        containsSub (env (Invocation.mutate action record value type)).stderr existsMarker = false) →
      (manage_dns record value type action env).1 =
        ManageOutcome.failed ("Action " ++ action ++ " for record failed")
          (env (Invocation.mutate action record value type)).stderr
          (env (Invocation.mutate action record value type)).rc) ∧
    ((env (Invocation.mutate action record value type)).rc = 0 →
      (manage_dns record value type action env).1 = ManageOutcome.ok) := by
  rcases hvalid with hv | hv <;> subst hv
  · refine ⟨by simp [manage_dns], ?_, ?_, ?_⟩
    · intro _ hrc hmark
      simp [manage_dns, manage_dns_classify, hrc, hmark, bne_iff_ne]
    · intro hrc hside
      rcases hside with hside | hside
      · exact absurd hside (by decide)
      · simp [manage_dns, manage_dns_classify, hrc, hside, bne_iff_ne]
    · intro hrc
      simp [manage_dns, manage_dns_classify, hrc]
  · refine ⟨by simp [manage_dns], ?_, ?_, ?_⟩
    · intro hcontra
      exact absurd hcontra (by decide)
    · intro hrc _
      simp [manage_dns, manage_dns_classify, hrc, bne_iff_ne]
    · intro hrc
      simp [manage_dns, manage_dns_classify, hrc]

/-- Witness for C7 (amended) at a concrete race: an add that exits 1 with
the already-exists marker in stderr ends unchanged rather than failing. -/
theorem c7_apply_error_classification_witness :
    (manage_dns "www" "10.1.1.123" "A" "add"
        (envLit 1 none "ERROR: WERR_DNS_ERROR_RECORD_ALREADY_EXISTS")).1 =
      ManageOutcome.exitUnchanged "Rercord already present" :=
  (c7_apply_error_classification "www" "10.1.1.123" "A" "add"
      (envLit 1 none "ERROR: WERR_DNS_ERROR_RECORD_ALREADY_EXISTS")
      (Or.inl rfl)).2.1 rfl (by decide) (by decide)

set_option maxRecDepth 100000 in
/-- C3: the parsing contract is broken for non-numeric values.  The first
conjunct shows the intended behaviour on numeric A-record values (one
record per matching line, in stdout order, with flags/serial/ttl captured);
the second shows that a CNAME record line with an FQDN value — well-formed
per the module's own documentation and examples — matches nothing, because
the value pattern `([0-9.]+)` accepts only digits and dots instead of an
opaque string: the parser silently reports no records. -/
theorem c3_value_pattern_rejects_fqdn :
    parseRecords "A"
        "  Name=, Records=2, Children=0\n    A: 10.1.1.123 (flags=f0, serial=0, ttl=1800)\n    A: 10.1.1.124 (flags=f0, serial=0, ttl=1800)" =
      [⟨"10.1.1.123", "f0", "0", "1800"⟩, ⟨"10.1.1.124", "f0", "0", "1800"⟩] ∧
    parseRecords "CNAME"
        "  Name=, Records=1, Children=0\n    CNAME: www.example.com (flags=f0, serial=110, ttl=900)" =
      [] := by
  decide

/-- Helper: the scan collects nothing when the pattern matches at no
position of the input. -/
theorem scanAllAux_eq_nil_of_no_match (pats : List Pat) (fuel : Nat) (cs : List Char)
    (h : existsMatch pats cs = false) : scanAllAux pats fuel cs = [] := by
  induction fuel generalizing cs with
  | zero => rw [scanAllAux]
  | succ n ih =>
    cases cs with
    | nil => rw [scanAllAux]
    | cons c cs =>
      rw [existsMatch, Bool.or_eq_false_iff] at h
      have h1 : matchPats pats (c :: cs) = none := by
        rcases hm : matchPats pats (c :: cs) with _ | v
        · rfl
        · rw [hm] at h; simp at h
      simp only [scanAllAux, h1]
      exact ih cs h.2

/-- Helper: `re.findall` yields no records when the pattern matches
nowhere in stdout. -/
theorem parseRecords_eq_nil_of_no_match (type out : String)
    (h : existsMatch (recordPats type) out.data = false) :
    parseRecords type out = [] := by
  rw [parseRecords, scanAll, scanAllAux_eq_nil_of_no_match _ _ _ h]
  rfl

/-- Helper: the record pattern never matches the empty string, since its
leading literal `TYPE: ` is non-empty. -/
theorem existsMatch_recordPats_nil (type : String) :
    existsMatch (recordPats type) [] = false := by
  rw [existsMatch, recordPats, matchPats]
  have hne : (type ++ ": ").data ≠ [] := by
    rw [String.data_append]
    rcases type.data with _ | ⟨c, cs⟩ <;> simp
  rcases hd : (type ++ ": ").data with _ | ⟨c, cs⟩
  · exact absurd hd hne
  · rfl

/-- C6: record-absent classification.  When stderr lacks the zone marker,
the query returns the empty record list (a successful result, never a
failure) in each of these cases: non-zero exit code or name-does-not-exist
marker; absent stdout; empty stdout; stdout in which the record pattern
matches nowhere.  The parser is a total function, so malformed stdout can
never produce a parse error. -/
theorem c6_record_absent (zone record type : String) (env : Env)
    (hz : containsSub (env (Invocation.query record type)).stderr zoneMarker = false) :
    (((env (Invocation.query record type)).rc ≠ 0 ∨
        containsSub (env (Invocation.query record type)).stderr nameMarker = true) →
      (get_exist_dns zone record type env).1 = QueryResult.records []) ∧
    ((env (Invocation.query record type)).stdout = none →
      (get_exist_dns zone record type env).1 = QueryResult.records []) ∧
    ((env (Invocation.query record type)).stdout = some "" →
      (get_exist_dns zone record type env).1 = QueryResult.records []) ∧
    (∀ out, (env (Invocation.query record type)).stdout = some out →
      existsMatch (recordPats type) out.data = false →
      (get_exist_dns zone record type env).1 = QueryResult.records []) := by
  have key : ∀ out, (env (Invocation.query record type)).stdout = some out →
      existsMatch (recordPats type) out.data = false →
      (get_exist_dns zone record type env).1 = QueryResult.records [] := by
    intro out hout hm
    simp only [get_exist_dns, classifyQuery, hz, Bool.false_eq_true, if_false]
    split
    · rfl
    · simp [hout, parseRecords_eq_nil_of_no_match type out hm]
  refine ⟨?_, ?_, ?_, key⟩
  · intro h
    simp only [get_exist_dns, classifyQuery, hz, Bool.false_eq_true, if_false]
    rw [if_pos]
    rcases h with h | h
    · simp [bne_iff_ne, h]
    · simp [h]
  · intro h
    simp only [get_exist_dns, classifyQuery, hz, Bool.false_eq_true, if_false, h]
    split <;> rfl
  · intro h
    exact key "" h (existsMatch_recordPats_nil type)

/-- Witness for C6 on three concrete query results: exit 1 with junk
stdout, exit 0 with the name marker, and exit 0 with well-formed stdout
that holds no line of the requested type — each returns the empty list. -/
theorem c6_record_absent_witness :
    (get_exist_dns "example.com" "www" "A" (envLit 1 (some "garbage output") "")).1 =
      QueryResult.records [] ∧
    (get_exist_dns "example.com" "www" "A"
        (envLit 0 none "ERROR: WERR_DNS_ERROR_NAME_DOES_NOT_EXIST")).1 =
      QueryResult.records [] ∧
    (get_exist_dns "example.com" "www" "AAAA"
        (envLit 0 (some "  Name=, Records=1, Children=0\n    A: 10.1.1.123 (flags=f0, serial=0, ttl=1800)") "")).1 =
      QueryResult.records [] := by
  refine ⟨?_, ?_, ?_⟩
  · exact (c6_record_absent "example.com" "www" "A"
      (envLit 1 (some "garbage output") "") (by decide)).1 (Or.inl (by decide))
  · exact (c6_record_absent "example.com" "www" "A"
      (envLit 0 none "ERROR: WERR_DNS_ERROR_NAME_DOES_NOT_EXIST") (by decide)).2.1 rfl
  · exact (c6_record_absent "example.com" "www" "AAAA"
      (envLit 0 (some "  Name=, Records=1, Children=0\n    A: 10.1.1.123 (flags=f0, serial=0, ttl=1800)") "")
      (by decide)).2.2.2 _ rfl (by decide)

/-- Helper: for a valid action, `manage_dns` issues exactly its one
mutating invocation. -/
theorem manage_dns_snd (record value type action : String) (env : Env)
    (h : action = "add" ∨ action = "delete") :
    (manage_dns record value type action env).2 =
      [Invocation.mutate action record value type] := by
  rcases h with h | h <;> subst h <;> simp [manage_dns]

/-- Helper: the reconcile step issues no invocation, or exactly the `add`
step's invocations, or exactly the `delete` step's invocations. -/
theorem reconcile_snd (p : Params) (check : Bool) (rs : List ExistingRecord)
    (env : Env) :
    (reconcile p check rs env).2 = [] ∨
    (reconcile p check rs env).2 = (manage_dns p.record p.value p.type "add" env).2 ∨
    (reconcile p check rs env).2 = (manage_dns p.record p.value p.type "delete" env).2 := by
  obtain ⟨record, value, type, state⟩ := p
  cases state
  · dsimp only [reconcile]
    split
    · exact Or.inl rfl
    · split
      · exact Or.inl rfl
      · split <;> rename_i heq <;>
          exact Or.inr (Or.inl (congrArg Prod.snd heq).symm)
  · dsimp only [reconcile]
    split
    · exact Or.inl rfl
    · split
      · split
        · exact Or.inl rfl
        · split <;> rename_i heq <;>
            exact Or.inr (Or.inr (congrArg Prod.snd heq).symm)
      · exact Or.inl rfl

/-- C9: invocation bound and ordering.  Every run's trace is either the
single query invocation, or the query invocation followed by exactly one
mutating invocation — so at most two external calls occur, the query always
comes first, and a mutation is only ever issued after the query result has
been classified. -/
theorem c9_invocation_bound (p : Params) (check : Bool) (zone : String) (env : Env) :
    (runMain p check zone env).2 = [Invocation.query p.record p.type] ∨
    ∃ a, (runMain p check zone env).2 =
      [Invocation.query p.record p.type, Invocation.mutate a p.record p.value p.type] := by
  rw [runMain, get_exist_dns]
  cases hq : classifyQuery zone p.type (env (Invocation.query p.record p.type)) with
  | failZone msg => exact Or.inl rfl
  | records rs =>
      dsimp only
      rcases reconcile_snd p check rs env with h | h | h
      · exact Or.inl (by simp [h])
      · exact Or.inr ⟨"add",
          by simp [h, manage_dns_snd p.record p.value p.type "add" env (Or.inl rfl)]⟩
      · exact Or.inr ⟨"delete",
          by simp [h, manage_dns_snd p.record p.value p.type "delete" env (Or.inr rfl)]⟩

/-- Helper: when the mutating invocations would succeed, check mode reaches
the same outcome as the real run and issues no invocation at all. -/
theorem reconcile_check_mode (p : Params) (rs : List ExistingRecord) (env : Env)
    (hadd : (env (Invocation.mutate "add" p.record p.value p.type)).rc = 0)
    (hdel : (env (Invocation.mutate "delete" p.record p.value p.type)).rc = 0) :
    (reconcile p true rs env).1 = (reconcile p false rs env).1 ∧
    (reconcile p true rs env).2 = [] := by
  obtain ⟨record, value, type, state⟩ := p
  dsimp only at hadd hdel
  cases state
  · dsimp only [reconcile]
    split
    · exact ⟨rfl, rfl⟩
    · have hcl : manage_dns_classify "add" (env (Invocation.mutate "add" record value type)) =
          ManageOutcome.ok := by
        simp [manage_dns_classify, hadd]
      simp [manage_dns, hcl]
  · dsimp only [reconcile]
    split
    · exact ⟨rfl, rfl⟩
    · split
      · have hcl : manage_dns_classify "delete" (env (Invocation.mutate "delete" record value type)) =
            ManageOutcome.ok := by
          simp [manage_dns_classify, hdel]
        simp [manage_dns, hcl]
      · exact ⟨rfl, rfl⟩

/-- C4: dry-run equivalence.  When the tool would accept the mutating call
(exit 0), the check-mode run reaches exactly the same terminal outcome —
classification and message — as the real run on the same inputs, while its
trace holds no mutating invocation; and any input whose real run is Changed
is also Changed under check mode. -/
theorem c4_dry_run_equivalence (p : Params) (zone : String) (env : Env)
    (hsucc : ∀ inv : Invocation, inv.isMutate = true → (env inv).rc = 0) :
    (runMain p true zone env).1 = (runMain p false zone env).1 ∧
    (∀ inv ∈ (runMain p true zone env).2, inv.isMutate = false) ∧
    ((runMain p false zone env).1.isChanged = true →
      (runMain p true zone env).1.isChanged = true) := by
  have hadd := hsucc (Invocation.mutate "add" p.record p.value p.type) rfl
  have hdel := hsucc (Invocation.mutate "delete" p.record p.value p.type) rfl
  rw [runMain, runMain, get_exist_dns]
  cases hq : classifyQuery zone p.type (env (Invocation.query p.record p.type)) with
  | failZone msg =>
      refine ⟨rfl, ?_, fun h => h⟩
      intro inv hinv
      simp at hinv
      simp [hinv, Invocation.isMutate]
  | records rs =>
      obtain ⟨h1, h2⟩ := reconcile_check_mode p rs env hadd hdel
      refine ⟨by simp [h1], ?_, by simp [h1]⟩
      intro inv hinv
      simp [h2] at hinv
      simp [hinv, Invocation.isMutate]

/-- Witness for C4 at the spec's create scenario (empty current list,
desired present) with a tool that accepts the mutation: identical Changed
outcome in both modes, and the check-mode trace is only the query. -/
theorem c4_dry_run_equivalence_witness :
    (runMain ⟨"www", "10.1.1.123", "A", DState.present⟩ true "example.com" envOk).1 =
      (runMain ⟨"www", "10.1.1.123", "A", DState.present⟩ false "example.com" envOk).1 ∧
    (∀ inv ∈ (runMain ⟨"www", "10.1.1.123", "A", DState.present⟩ true "example.com" envOk).2,
      inv.isMutate = false) :=
  ⟨(c4_dry_run_equivalence ⟨"www", "10.1.1.123", "A", DState.present⟩
      "example.com" envOk (fun _ _ => rfl)).1,
   (c4_dry_run_equivalence ⟨"www", "10.1.1.123", "A", DState.present⟩
      "example.com" envOk (fun _ _ => rfl)).2.1⟩

/-- View a store — the list of values currently under the record name —
as the record list the query step reports (metadata fields as samba-tool
prints them for a fresh record). -/
def recordsOf (store : List String) : List ExistingRecord :=
  store.map (fun v => ⟨v, "f0", "0", "1800"⟩)

/-- Effect of one invocation on the store, as claim C8 models it: `add`
inserts the desired value into the record's value set, `delete` removes
exactly that value, a query changes nothing. -/
def applyInv (store : List String) : Invocation → List String
  | .mutate a _ v _ =>
      if a = "add" then store ++ [v]
      else if a = "delete" then store.filter (fun x => x != v)
      else store
  | .query _ _ => store

/-- Effect of a whole trace on the store. -/
def applyTrace (store : List String) (tr : List Invocation) : List String :=
  tr.foldl applyInv store

/-- One reconciliation run against a store, with a tool that executes every
issued invocation successfully (no interference from other actors): the
outcome, the trace, and the store after the trace's effect. -/
def runOnStore (p : Params) (store : List String) :
    RunOutcome × List Invocation × List String :=
  ((reconcile p false (recordsOf store) envOk).1,
   (reconcile p false (recordsOf store) envOk).2,
   applyTrace store (reconcile p false (recordsOf store) envOk).2)

/-- Helper: the query view of a store reports exactly the store values. -/
theorem recordsOf_map_value (store : List String) :
    (recordsOf store).map (fun r => r.value) = store := by
  simp [recordsOf, List.map_map, Function.comp_def]

/-- Helper: a value is seen among the reported records exactly when it is
in the store. -/
theorem recordsOf_any (store : List String) (v : String) :
    ((recordsOf store).any (fun r => r.value == v) = true) ↔ v ∈ store := by
  induction store with
  | nil => simp [recordsOf]
  | cons a l ih =>
      simp only [recordsOf, List.map_cons, List.any_cons, Bool.or_eq_true, beq_iff_eq] at ih ⊢
      rw [ih, List.mem_cons, eq_comm]

/-- Helper: the store view is empty exactly when the store is. -/
theorem recordsOf_isEmpty (store : List String) :
    (recordsOf store).isEmpty = store.isEmpty := by
  cases store <;> rfl

/-- Helper: removing a value removes every copy of it. -/
theorem not_mem_filter_bne (store : List String) (v : String) :
    v ∉ store.filter (fun x => x != v) := by
  simp [List.mem_filter]

/-- Helper: full description of an ensure-present run against a store. -/
theorem runOnStore_present (record value type : String) (store : List String) :
    (value ∈ store →
      runOnStore ⟨record, value, type, DState.present⟩ store =
        (RunOutcome.unchanged "Record already present", [], store)) ∧
    (value ∉ store →
      runOnStore ⟨record, value, type, DState.present⟩ store =
        (RunOutcome.changed "Record has been created",
         [Invocation.mutate "add" record value type], store ++ [value])) := by
  constructor
  · intro hv
    have h : (recordsOf store).any (fun r => r.value == value) = true :=
      (recordsOf_any store value).mpr hv
    simp [runOnStore, reconcile, h, applyTrace]
  · intro hv
    have h : (recordsOf store).any (fun r => r.value == value) = false := by
      rcases hb : (recordsOf store).any (fun r => r.value == value) with _ | _
      · rfl
      · exact absurd ((recordsOf_any store value).mp hb) hv
    have hcl : manage_dns_classify "add" (envOk (Invocation.mutate "add" record value type)) =
        ManageOutcome.ok := by
      simp [manage_dns_classify, envOk, envLit]
    simp [runOnStore, reconcile, h, manage_dns, hcl, applyTrace, applyInv]

/-- Helper: full description of an ensure-absent run against a store. -/
theorem runOnStore_absent (record value type : String) (store : List String) :
    (store = [] →
      runOnStore ⟨record, value, type, DState.absent⟩ store =
        (RunOutcome.unchanged "No such record found", [], [])) ∧
    (store ≠ [] → value ∉ store →
      runOnStore ⟨record, value, type, DState.absent⟩ store =
        (RunOutcome.unchanged ("Record found with different value, but not with " ++ value),
         [], store)) ∧
    (value ∈ store →
      runOnStore ⟨record, value, type, DState.absent⟩ store =
        (RunOutcome.changed "Record has been deleted",
         [Invocation.mutate "delete" record value type],
         store.filter (fun x => x != value))) := by
  refine ⟨?_, ?_, ?_⟩
  · intro hv
    subst hv
    simp [runOnStore, reconcile, recordsOf, applyTrace]
  · intro hne hv
    have hemp : (recordsOf store).isEmpty = false := by
      rw [recordsOf_isEmpty]
      cases store with
      | nil => exact absurd rfl hne
      | cons a l => rfl
    have hc : ¬∃ r ∈ recordsOf store, r.value = value := by
      rintro ⟨r, hr, hrv⟩
      obtain ⟨x, hx, rfl⟩ := List.mem_map.mp hr
      exact hv (hrv ▸ hx)
    simp [runOnStore, reconcile, hemp, hc, applyTrace]
  · intro hv
    have hemp : (recordsOf store).isEmpty = false := by
      rw [recordsOf_isEmpty]
      cases store with
      | nil => simp at hv
      | cons a l => rfl
    have hc : ∃ r ∈ recordsOf store, r.value = value :=
      ⟨⟨value, "f0", "0", "1800"⟩, List.mem_map_of_mem _ hv, rfl⟩
    have hcl : manage_dns_classify "delete" (envOk (Invocation.mutate "delete" record value type)) =
        ManageOutcome.ok := by
      simp [manage_dns_classify, envOk, envLit]
    simp [runOnStore, reconcile, hemp, hc, manage_dns, hcl, applyTrace, applyInv]

/-- Counterexample for C8: with desired state (present, "10.1.1.123") and a
store that already holds that value, the FIRST run is already Unchanged —
so "reconcile applied twice yields Changed then Unchanged" fails for this
desired state; the claim holds only when the store does not already satisfy
the desired state. -/
theorem c8_counterexample :
    (runOnStore ⟨"www", "10.1.1.123", "A", DState.present⟩ ["10.1.1.123"]).1 =
      RunOutcome.unchanged "Record already present" ∧
    (runOnStore ⟨"www", "10.1.1.123", "A", DState.present⟩ ["10.1.1.123"]).1.isChanged =
      false := by
  decide

/-- C8 (amended): idempotence.  For every desired state and every initial
store, with no interference and a successful tool: the second of two
consecutive runs ends Unchanged and issues no invocation at all (in
particular no add or delete); and the first run ends Changed exactly when
the store does not already satisfy the desired state. -/
theorem c8_idempotence (p : Params) (store : List String) :
    ((runOnStore p (runOnStore p store).2.2).1.isUnchanged = true ∧
      (runOnStore p (runOnStore p store).2.2).2.1 = []) ∧
    ((runOnStore p store).1.isChanged = true ↔
      ((p.state = DState.present ∧ p.value ∉ store) ∨
       (p.state = DState.absent ∧ p.value ∈ store))) := by
  obtain ⟨record, value, type, state⟩ := p
  cases state
  · by_cases hv : value ∈ store
    · have h1 := (runOnStore_present record value type store).1 hv
      rw [h1]
      dsimp only
      rw [h1]
      simp [RunOutcome.isUnchanged, RunOutcome.isChanged, hv]
    · have h1 := (runOnStore_present record value type store).2 hv
      rw [h1]
      dsimp only
      have h2 := (runOnStore_present record value type (store ++ [value])).1
        (by simp : value ∈ store ++ [value])
      rw [h2]
      simp [RunOutcome.isUnchanged, RunOutcome.isChanged, hv]
  · by_cases hv : value ∈ store
    · have h1 := (runOnStore_absent record value type store).2.2 hv
      rw [h1]
      dsimp only
      have hv2 : value ∉ store.filter (fun x => x != value) :=
        not_mem_filter_bne store value
      by_cases h0 : store.filter (fun x => x != value) = []
      · rw [h0]
        have h2 := (runOnStore_absent record value type ([] : List String)).1 rfl
        rw [h2]
        simp [RunOutcome.isUnchanged, RunOutcome.isChanged, hv]
      · have h2 := (runOnStore_absent record value type
          (store.filter (fun x => x != value))).2.1 h0 hv2
        rw [h2]
        simp [RunOutcome.isUnchanged, RunOutcome.isChanged, hv]
    · by_cases h0 : store = []
      · subst h0
        have h1 := (runOnStore_absent record value type ([] : List String)).1 rfl
        rw [h1]
        dsimp only
        rw [h1]
        simp [RunOutcome.isUnchanged, RunOutcome.isChanged]
      · have h1 := (runOnStore_absent record value type store).2.1 h0 hv
        rw [h1]
        dsimp only
        rw [h1]
        simp [RunOutcome.isUnchanged, RunOutcome.isChanged, hv]
